import Mathlib

/-!
Verification of korgalore's delivery pipeline against its specification.

The Python sources are shallowly embedded: messages are byte lists
(`List Nat`), git and network interactions are oracle inputs recorded in
small structures, and each embedded function mirrors the control flow of
the corresponding Python function named in its doc comment.
-/

namespace Korgalore

/-! ## Raw message bytes (src/korgalore/message.py)

`RawMessage.as_bytes` first collapses every CRLF (bytes 13 10) to LF
(byte 10) with `bytes.replace`, optionally injects the trace header,
then expands every LF back to CRLF.  `bytes.replace` scans left to
right and replaces non-overlapping occurrences; `collapseCRLF` and
`expandLF` implement exactly that scan for the two fixed patterns. -/

/-- Embedding of the python expression that replaces every CRLF (13 10)
by LF (10), scanning left to right over non-overlapping occurrences. -/
def collapseCRLF : List Nat → List Nat
  | [] => []
  | [b] => [b]
  | b :: c :: rest =>
    if b = 13 ∧ c = 10 then 10 :: collapseCRLF rest
    else b :: collapseCRLF (c :: rest)

/-- Embedding of the python expression that replaces every LF (10) by
CRLF (13 10), scanning left to right. -/
def expandLF : List Nat → List Nat
  | [] => []
  | b :: rest =>
    if b = 10 then 13 :: 10 :: expandLF rest
    else b :: expandLF rest

/-- Embedding of `RawMessage._inject_trace_header(message, ...)`: find the first blank
line (two consecutive LF bytes) in the LF-normalized message and insert
the rendered trace-header bytes between the two LFs; if there is no
blank line, append the header bytes at the end.  The rendered header
(whose value contains the version and the current date) is passed in as
`trace`. -/
def injectTraceHeader : List Nat → List Nat → List Nat
  | [], trace => trace
  | [b], trace => b :: trace
  | b :: c :: rest, trace =>
    if b = 10 ∧ c = 10 then b :: (trace ++ c :: rest)
    else b :: injectTraceHeader (c :: rest) trace

/-- Embedding of `RawMessage.as_bytes()` with no feed/delivery name: collapse CRLF to
LF, then expand LF to CRLF. -/
def as_bytes (raw : List Nat) : List Nat :=
  expandLF (collapseCRLF raw)

/-- Embedding of `RawMessage.as_bytes(feed_name, delivery_name)`: the trace header is
injected only when both names are provided; `trace` is the rendered
header produced by `_wrap_header` plus a trailing LF. -/
def as_bytes_with_names (raw : List Nat) (feedName deliveryName : Option String)
    (trace : List Nat) : List Nat :=
  let normalized := collapseCRLF raw
  let normalized :=
    if feedName.isSome && deliveryName.isSome then
      injectTraceHeader normalized trace
    else
      normalized
  expandLF normalized

/-- A byte string is CRLF-normalized when it contains no bare LF: every
byte 10 is directly preceded by byte 13. -/
def noBareLF : List Nat → Bool
  | [] => true
  | [b] => b ≠ 10
  | b :: c :: rest =>
    if b = 13 ∧ c = 10 then noBareLF rest
    else if b = 10 then false
    else noBareLF (c :: rest)

theorem expandLF_eq_nil {s : List Nat} (h : expandLF s = []) : s = [] := by
  cases s with
  | nil => rfl
  | cons b rest =>
    by_cases hb : b = 10 <;> simp [expandLF, hb] at h

theorem expandLF_head_ne_10 {s : List Nat} {c : Nat} {t : List Nat}
    (h : expandLF s = c :: t) : c ≠ 10 := by
  cases s with
  | nil => simp [expandLF] at h
  | cons b rest =>
    by_cases hb : b = 10
    · simp [expandLF, hb] at h
      omega
    · simp [expandLF, hb] at h
      intro hc
      exact hb (by omega)

theorem collapseCRLF_expandLF (s : List Nat) :
    collapseCRLF (expandLF s) = s := by
  induction s with
  | nil => rfl
  | cons b rest ih =>
    by_cases hb : b = 10
    · subst hb
      have h1 : expandLF (10 :: rest) = 13 :: 10 :: expandLF rest := by
        simp [expandLF]
      rw [h1]
      have h2 : collapseCRLF (13 :: 10 :: expandLF rest)
          = 10 :: collapseCRLF (expandLF rest) := by
        simp [collapseCRLF]
      rw [h2, ih]
    · have h1 : expandLF (b :: rest) = b :: expandLF rest := by
        simp [expandLF, hb]
      rw [h1]
      rcases h10 : expandLF rest with _ | ⟨c, t⟩
      · have : rest = [] := expandLF_eq_nil h10
        subst this
        rfl
      · have hc : c ≠ 10 := expandLF_head_ne_10 h10
        have h2 : collapseCRLF (b :: c :: t) = b :: collapseCRLF (c :: t) := by
          have : ¬(b = 13 ∧ c = 10) := fun hx => hc hx.2
          simp [collapseCRLF, this]
        rw [h2, ← h10, ih]

/-- Claim C3: for every input byte string `m`, line-ending
normalization in `RawMessage.as_bytes` (called without feed or delivery
name) is idempotent: `as_bytes (as_bytes m) = as_bytes m`, whatever mix
of LF, CRLF or stray CR bytes `m` contains. -/
theorem as_bytes_idempotent (m : List Nat) :
    as_bytes (as_bytes m) = as_bytes m := by
  unfold as_bytes
  rw [collapseCRLF_expandLF]

/-! ## IMAP target (src/korgalore/imap_target.py)

`ImapTarget._check_message_exists` and `ImapTarget.import_message` talk
to an IMAP server through `imaplib`.  The server side is modelled by
`ImapConn`: `folder` lists the messages of the configured folder by
their Message-ID header, and the two `CmdOutcome` fields give the
server's behaviour for the SELECT and SEARCH commands of this import
(raising an `imaplib.IMAP4.error`, or completing with a status string).
When SEARCH completes with status OK, its data is the list of message
numbers of the folder messages bearing the searched Message-ID, which
`searchHits` computes (honest-server assumption).  `import_message`'s
result records the dedup decision: either the skipped sentinel, or the
APPEND command that is issued, with its flags and internal-date
arguments and the transmitted payload `msg.as_bytes()`. -/

/-- Outcome of one IMAP command: an `imaplib.IMAP4.error` exception, or
completion with a status string. -/
inductive CmdOutcome where
  | raises : CmdOutcome
  | status : String → CmdOutcome
deriving DecidableEq

/-- The IMAP server as seen by one `import_message` call. -/
structure ImapConn where
  selectOutcome : CmdOutcome
  searchOutcome : CmdOutcome
  folder : List (Option String)
deriving DecidableEq

/-- Message numbers (1-based) of the folder messages whose Message-ID
header equals `mid`: the data of an OK `SEARCH HEADER Message-ID`. -/
def searchHitsFrom (n : Nat) : List (Option String) → String → List Nat
  | [], _ => []
  | h :: t, mid =>
    if h = some mid then n :: searchHitsFrom (n + 1) t mid
    else searchHitsFrom (n + 1) t mid

/-- Search data for `mid` over the whole folder. -/
def searchHits (folder : List (Option String)) (mid : String) : List Nat :=
  searchHitsFrom 1 folder mid

/-- Embedding of `ImapTarget._check_message_exists(message_id)`: select the folder
read-only, search for the Message-ID, report whether any message number
came back; any non-OK status or `imaplib` exception yields `false`. -/
def check_message_exists (conn : ImapConn) (mid : String) : Bool :=
  match conn.selectOutcome with
  | .raises => false
  | .status st =>
    if st = "OK" then
      match conn.searchOutcome with
      | .raises => false
      | .status st2 =>
        if st2 = "OK" then !(searchHits conn.folder mid).isEmpty
        else false
    else false

/-- Result of `ImapTarget.import_message`: the skipped-duplicate
sentinel, or the APPEND issued to the server with its flags argument,
its internal-date argument and the transmitted bytes. -/
inductive ImapImportResult where
  | skipped : ImapImportResult
  | appended : String → String → List Nat → ImapImportResult
deriving DecidableEq

/-- Embedding of `ImapTarget.import_message(raw_message, labels)`: wrap the bytes in
a `RawMessage`; if the message has a truthy Message-ID that
`_check_message_exists` finds in the folder, return the skipped
sentinel; otherwise APPEND `msg.as_bytes()` with empty flags and empty
internal date.  (A server error after the APPEND is issued propagates
as `RemoteError` and does not change which command was issued.) -/
def imap_import_message (conn : ImapConn) (raw : List Nat)
    (messageId : Option String) : ImapImportResult :=
  match messageId with
  | some mid =>
    if mid ≠ "" && check_message_exists conn mid then .skipped
    else .appended "" "" (as_bytes raw)
  | none => .appended "" "" (as_bytes raw)

theorem searchHitsFrom_eq_nil_iff (folder : List (Option String))
    (mid : String) (n : Nat) :
    searchHitsFrom n folder mid = [] ↔ some mid ∉ folder := by
  induction folder generalizing n with
  | nil => simp [searchHitsFrom]
  | cons h t ih =>
    by_cases hh : h = some mid
    · simp [searchHitsFrom, hh]
    · simp only [searchHitsFrom, if_neg hh, ih (n + 1), List.mem_cons]
      constructor
      · intro hnt h2
        rcases h2 with h2 | h2
        · exact hh h2.symm
        · exact hnt h2
      · intro hn h2
        exact hn (Or.inr h2)

theorem searchHits_ne_nil_iff (folder : List (Option String)) (mid : String) :
    searchHits folder mid ≠ [] ↔ some mid ∈ folder := by
  unfold searchHits
  constructor
  · intro hne
    by_contra hmem
    exact hne ((searchHitsFrom_eq_nil_iff folder mid 1).mpr hmem)
  · intro hmem hnil
    exact (searchHitsFrom_eq_nil_iff folder mid 1).mp hnil hmem

/-- Claim C4: for every IMAP import of a message whose Message-ID
already exists in the configured folder, `import_message` returns the
skipped-duplicate sentinel and issues no APPEND; for every message not
found by the search, it APPENDs with empty flags and empty internal
date.  (Server hypothesis: SELECT and SEARCH complete with status OK
and the search data faithfully lists the folder's matches.) -/
theorem imap_import_dedup (conn : ImapConn) (raw : List Nat)
    (hsel : conn.selectOutcome = .status "OK")
    (hsearch : conn.searchOutcome = .status "OK") :
    (∀ mid : String, mid ≠ "" → some mid ∈ conn.folder →
      imap_import_message conn raw (some mid) = .skipped) ∧
    (∀ messageId : Option String,
      (∀ mid : String, messageId = some mid → searchHits conn.folder mid = []) →
      imap_import_message conn raw messageId = .appended "" "" (as_bytes raw)) := by
  constructor
  · intro mid hne hmem
    have hex : check_message_exists conn mid = true := by
      unfold check_message_exists
      rw [hsel, hsearch]
      simp only [if_pos rfl]
      simp [List.isEmpty_iff, (searchHits_ne_nil_iff conn.folder mid).mpr hmem]
    simp [imap_import_message, hne, hex]
  · intro messageId hmiss
    match messageId with
    | none => rfl
    | some mid =>
      have hex : check_message_exists conn mid = false := by
        unfold check_message_exists
        rw [hsel, hsearch]
        simp [List.isEmpty_iff, hmiss mid rfl]
      simp [imap_import_message, hex]

/-- Witness for `imap_import_dedup` at a concrete connection: a folder
holding Message-ID `<m1@x>` makes the import of that id skipped, and an
id absent from the folder is appended with empty flags and date. -/
theorem imap_import_dedup_witness :
    imap_import_message
        ⟨.status "OK", .status "OK", [some "<m1@x>"]⟩ [65] (some "<m1@x>")
      = .skipped ∧
    imap_import_message
        ⟨.status "OK", .status "OK", [some "<m1@x>"]⟩ [65] (some "<m2@x>")
      = .appended "" "" (as_bytes [65]) := by
  constructor
  · exact (imap_import_dedup ⟨.status "OK", .status "OK", [some "<m1@x>"]⟩ [65]
      rfl rfl).1 "<m1@x>" (by decide) (by simp)
  · exact (imap_import_dedup ⟨.status "OK", .status "OK", [some "<m1@x>"]⟩ [65]
      rfl rfl).2 (some "<m2@x>") (by intro mid h; cases h; decide)

/-- Claim C10: IMAP duplicate detection fails open: an import of a
message with no Message-ID header, and an import in which the SELECT or
SEARCH used to look for an existing copy raises or returns a non-OK
status, proceeds to APPEND the message anyway — even when the
Message-ID does exist in the folder, so a duplicate can be delivered. -/
theorem imap_dedup_fails_open (conn : ImapConn) (raw : List Nat) (mid : String) :
    (imap_import_message conn raw none = .appended "" "" (as_bytes raw)) ∧
    (conn.selectOutcome = .raises → some mid ∈ conn.folder →
      imap_import_message conn raw (some mid) = .appended "" "" (as_bytes raw)) ∧
    (∀ st : String, conn.selectOutcome = .status st → st ≠ "OK" →
      some mid ∈ conn.folder →
      imap_import_message conn raw (some mid) = .appended "" "" (as_bytes raw)) ∧
    (conn.selectOutcome = .status "OK" → conn.searchOutcome = .raises →
      some mid ∈ conn.folder →
      imap_import_message conn raw (some mid) = .appended "" "" (as_bytes raw)) ∧
    (∀ st : String, conn.selectOutcome = .status "OK" →
      conn.searchOutcome = .status st → st ≠ "OK" → some mid ∈ conn.folder →
      imap_import_message conn raw (some mid) = .appended "" "" (as_bytes raw)) := by
  refine ⟨rfl, ?_, ?_, ?_, ?_⟩
  · intro hsel _
    have hex : check_message_exists conn mid = false := by
      unfold check_message_exists
      rw [hsel]
    simp [imap_import_message, hex]
  · intro st hsel hst _
    have hex : check_message_exists conn mid = false := by
      unfold check_message_exists
      rw [hsel]
      simp [hst]
    simp [imap_import_message, hex]
  · intro hsel hsearch _
    have hex : check_message_exists conn mid = false := by
      unfold check_message_exists
      rw [hsel, hsearch]
      simp
    simp [imap_import_message, hex]
  · intro st hsel hsearch hst _
    have hex : check_message_exists conn mid = false := by
      unfold check_message_exists
      rw [hsel, hsearch]
      simp [hst]
    simp [imap_import_message, hex]

/-- Witness for `imap_dedup_fails_open` at a concrete connection whose
SELECT raises while the folder does contain the Message-ID. -/
theorem imap_dedup_fails_open_witness :
    imap_import_message ⟨.raises, .status "OK", [some "<m1@x>"]⟩ [65] (some "<m1@x>")
      = .appended "" "" (as_bytes [65]) :=
  (imap_dedup_fails_open ⟨.raises, .status "OK", [some "<m1@x>"]⟩ [65] "<m1@x>").2.1
    rfl (by simp)

/-! ## Bozofilter (src/korgalore/bozofilter.py)

`extract_email_address` delegates the From-header parsing to
`email.utils.parseaddr`; the address `parseaddr` extracts (its second
component, possibly the empty string) is an oracle input here.
`load_bozofilter` stores every filter entry lowercased, so the filter
is a list of lowercase addresses. -/

/-- Python `str.lower()` (ASCII range, which is what email addresses
use). -/
def pyLower (s : String) : String := String.mk (s.data.map Char.toLower)

/-- Embedding of `extract_email_address(from_header)`: `None` for an empty header or
when `parseaddr` finds no address, otherwise the lowercased address.
`parsedAddr` is the address component `parseaddr` returned. -/
def extract_email_address (fromHeader parsedAddr : String) : Option String :=
  if fromHeader = "" then none
  else if parsedAddr = "" then none
  else some (pyLower parsedAddr)

/-- Embedding of `is_bozofied(from_header, bozofilter)`: `False` on an empty filter,
otherwise membership of the extracted lowercase address in the
filter. -/
def is_bozofied (fromHeader parsedAddr : String) (bozo : List String) : Bool :=
  if bozo.isEmpty then false
  else
    match extract_email_address fromHeader parsedAddr with
    | some a => bozo.contains a
    | none => false

/-! ## Per-commit delivery (src/korgalore/cli.py, `deliver_commit`)

The feed, the target connection and the header parsing are oracle
inputs collected in `DeliverEnv`; the function returns `deliver_commit`'s
return value together with the ordered list of feed/target mutations it
performs.  `SKIPPED_BOZOFILTER` is cli.py's sentinel string. -/

/-- Exception classes of korgalore (src/korgalore/__init__.py). -/
inductive KErr where
  | state : KErr
  | git : KErr
  | remote : KErr
  | config : KErr
deriving DecidableEq

/-- Oracle inputs of one `deliver_commit` call: the outcome of
`feed.get_message_at_commit`, of `target.connect()`, the parsed headers
(`msg.get('From', '')`, the address `parseaddr` extracts from it,
`msg.get('Message-ID', '')`), and the outcome of
`target.import_message` were it called. -/
structure DeliverEnv where
  fetch : Except KErr (List Nat)
  connect : Except KErr Unit
  fromHeader : String
  parsedAddr : String
  messageId : String
  importOutcome : Except KErr Unit

/-- Feed/target mutations `deliver_commit` can perform, in order. -/
inductive Event where
  | markSuccessful : String → Int → String → Bool → Event
  | markFailed : String → Int → String → Event
  | importMsg : List Nat → List String → Event
  | saveDeliveryInfo : String → Int → String → Event
deriving DecidableEq

/-- The `SKIPPED_BOZOFILTER` sentinel (src/korgalore/cli.py). -/
def SKIPPED_BOZOFILTER : String := "__SKIPPED_BOZOFILTER__"

/-- Embedding of `deliver_commit(delivery_name, target, feed, epoch, commit, labels,
was_failing, bozofilter)`: fetch the raw message, connect, parse; if the
bozofilter is non-empty and matches the From address, mark successful
and return the sentinel; otherwise call `target.import_message` with the
fetched bytes and mark successful (returning the Message-ID) or, on any
exception, mark failed and — when the message was fetched and this is
not a retry — save the delivery info for this commit. -/
def deliver_commit (env : DeliverEnv) (deliveryName : String) (epoch : Int)
    (commit : String) (labels : List String) (wasFailing : Bool)
    (bozo : List String) : Option String × List Event :=
  match env.fetch with
  | .error _ => (none, [Event.markFailed deliveryName epoch commit])
  | .ok raw =>
    match env.connect with
    | .error _ =>
      (none, Event.markFailed deliveryName epoch commit ::
        (if wasFailing then [] else [Event.saveDeliveryInfo deliveryName epoch commit]))
    | .ok _ =>
      if !bozo.isEmpty && is_bozofied env.fromHeader env.parsedAddr bozo then
        (some SKIPPED_BOZOFILTER,
          [Event.markSuccessful deliveryName epoch commit wasFailing])
      else
        match env.importOutcome with
        | .ok _ =>
          (some env.messageId,
            [Event.importMsg raw labels,
             Event.markSuccessful deliveryName epoch commit wasFailing])
        | .error _ =>
          (none, Event.importMsg raw labels ::
            Event.markFailed deliveryName epoch commit ::
            (if wasFailing then [] else [Event.saveDeliveryInfo deliveryName epoch commit]))

/-- Embedding of `PIService.get_message_at_commit(pi_dir, commitish)`
(src/korgalore/pi_service.py): `git show <commitish>:m`; exit status 128
(no `m` file in the tree) raises `StateError`, any other non-zero status
raises `GitError`, success returns the bytes. -/
def get_message_at_commit (retcode : Int) (output : List Nat) :
    Except KErr (List Nat) :=
  if retcode = 128 then .error .state
  else if retcode ≠ 0 then .error .git
  else .ok output

/-- Claim C5: for every commit whose parsed From-header address is
in the bozofilter (membership of the lowercased address), per-commit
delivery marks the delivery successful, returns the skipped sentinel,
and never calls `target.import_message` for that commit. -/
theorem deliver_commit_bozofiltered (env : DeliverEnv) (deliveryName : String)
    (epoch : Int) (commit : String) (labels : List String) (wasFailing : Bool)
    (bozo : List String) (raw : List Nat) (a : String)
    (hfetch : env.fetch = .ok raw) (hconn : env.connect = .ok ())
    (hfrom : env.fromHeader ≠ "") (haddr : env.parsedAddr = a) (hne : a ≠ "")
    (hmem : pyLower a ∈ bozo) :
    deliver_commit env deliveryName epoch commit labels wasFailing bozo
      = (some SKIPPED_BOZOFILTER,
         [Event.markSuccessful deliveryName epoch commit wasFailing]) ∧
    ∀ (p : List Nat) (l : List String),
      Event.importMsg p l ∉
        (deliver_commit env deliveryName epoch commit labels wasFailing bozo).2 := by
  have hbozo : bozo ≠ [] := by
    intro h
    rw [h] at hmem
    exact absurd hmem (List.not_mem_nil _)
  have hbz : is_bozofied env.fromHeader env.parsedAddr bozo = true := by
    unfold is_bozofied extract_email_address
    rw [if_neg (by simpa using hbozo), if_neg hfrom, haddr, if_neg hne]
    simpa using hmem
  have hres : deliver_commit env deliveryName epoch commit labels wasFailing bozo
      = (some SKIPPED_BOZOFILTER,
         [Event.markSuccessful deliveryName epoch commit wasFailing]) := by
    unfold deliver_commit
    rw [hfetch, hconn]
    simp [hbz, List.isEmpty_iff, hbozo]
  refine ⟨hres, ?_⟩
  intro p l hmem'
  rw [hres] at hmem'
  simp at hmem'

/-- Witness for `deliver_commit_bozofiltered` at a concrete environment:
sender `Bozo@X.com` with bozofilter entry `bozo@x.com`. -/
theorem deliver_commit_bozofiltered_witness :
    deliver_commit
        ⟨.ok [65], .ok (), "Bozo <Bozo@X.com>", "Bozo@X.com", "<m1@x>", .ok ()⟩
        "lkml" 0 "c0" ["L"] false ["bozo@x.com"]
      = (some SKIPPED_BOZOFILTER, [Event.markSuccessful "lkml" 0 "c0" false]) :=
  (deliver_commit_bozofiltered
    ⟨.ok [65], .ok (), "Bozo <Bozo@X.com>", "Bozo@X.com", "<m1@x>", .ok ()⟩
    "lkml" 0 "c0" ["L"] false ["bozo@x.com"] [65] "Bozo@X.com"
    rfl rfl (by decide) rfl (by decide) (by decide)).1

/-- Claim C2 (code bug): `PIService.get_message_at_commit` does
raise a state error for a commit with no `m` file (exit status 128),
distinct from the git error raised for other failures — but
`deliver_commit` does not skip such a commit: its blanket exception
handler calls `feed.mark_failed_delivery`, entering the commit into the
failed ledger, contrary to the specified skip-without-marking-failed. -/
theorem deliver_commit_state_error_marks_failed :
    get_message_at_commit 128 [] = .error .state ∧
    get_message_at_commit 1 [] = .error .git ∧
    KErr.state ≠ KErr.git ∧
    deliver_commit ⟨.error .state, .ok (), "", "", "", .ok ()⟩ "lkml" 0 "c0" [] false []
      = (none, [Event.markFailed "lkml" 0 "c0"]) ∧
    Event.markFailed "lkml" 0 "c0" ∈
      (deliver_commit ⟨.error .state, .ok (), "", "", "", .ok ()⟩
        "lkml" 0 "c0" [] false []).2 := by
  refine ⟨rfl, rfl, by decide, rfl, ?_⟩
  simp [deliver_commit]

/-- Byte values of a string's characters (messages in the public-inbox
tree are stored with Unix LF endings). -/
def strBytes (s : String) : List Nat := s.data.map Char.toNat

/-- Does `s` start with `pat`? -/
def startsWith : List Nat → List Nat → Bool
  | [], _ => true
  | _ :: _, [] => false
  | p :: ps, x :: xs => p = x && startsWith ps xs

/-- Does `s` contain `pat` as a contiguous subsequence? -/
def containsSeq (pat : List Nat) : List Nat → Bool
  | [] => pat.isEmpty
  | x :: xs => startsWith pat (x :: xs) || containsSeq pat xs

/-- Claim C1 counterexample: `deliver_commit` hands
`target.import_message` the raw git bytes unchanged — at this commit
(scenario 2's message, stored with LF endings) the payload contains a
bare LF, so it is not CRLF-normalized, and it contains no
`X-Korgalore-Trace` header. -/
theorem deliver_commit_payload_counterexample :
    deliver_commit
        ⟨.ok (strBytes "From: a@x\nSubject: T\n\nbody\n"), .ok (),
         "a@x", "a@x", "<m1@x>", .ok ()⟩
        "lkml" 0 "c1" ["A", "B"] false []
      = (some "<m1@x>",
         [Event.importMsg (strBytes "From: a@x\nSubject: T\n\nbody\n") ["A", "B"],
          Event.markSuccessful "lkml" 0 "c1" false]) ∧
    noBareLF (strBytes "From: a@x\nSubject: T\n\nbody\n") = false ∧
    containsSeq (strBytes "X-Korgalore-Trace:")
        (strBytes "From: a@x\nSubject: T\n\nbody\n") = false :=
  ⟨rfl, by decide, by decide⟩

/-- Claim C1 (amended): the per-commit delivery routine passes the
raw message bytes unchanged to `target.import_message` — LF line
endings as stored in git and no `X-Korgalore-Trace` header.  The
routine supplies no feed or delivery names, and `RawMessage.as_bytes`
injects the trace header only when both names are given, so no trace
header is added on this path. -/
theorem deliver_commit_raw_passthrough (env : DeliverEnv) (raw : List Nat)
    (deliveryName : String) (epoch : Int) (commit : String)
    (labels : List String) (wasFailing : Bool) (bozo : List String)
    (hfetch : env.fetch = .ok raw) (hconn : env.connect = .ok ())
    (hbz : is_bozofied env.fromHeader env.parsedAddr bozo = false) :
    (Event.importMsg raw labels ∈
      (deliver_commit env deliveryName epoch commit labels wasFailing bozo).2) ∧
    (∀ (p : List Nat) (l : List String),
      Event.importMsg p l ∈
        (deliver_commit env deliveryName epoch commit labels wasFailing bozo).2 →
      p = raw ∧ l = labels) ∧
    (∀ trace : List Nat, as_bytes_with_names raw none none trace = as_bytes raw) := by
  have hres : deliver_commit env deliveryName epoch commit labels wasFailing bozo
      = (match env.importOutcome with
         | .ok _ =>
           (some env.messageId,
             [Event.importMsg raw labels,
              Event.markSuccessful deliveryName epoch commit wasFailing])
         | .error _ =>
           (none, Event.importMsg raw labels ::
             Event.markFailed deliveryName epoch commit ::
             (if wasFailing then []
              else [Event.saveDeliveryInfo deliveryName epoch commit]))) := by
    unfold deliver_commit
    rw [hfetch, hconn]
    simp [hbz]
  refine ⟨?_, ?_, ?_⟩
  · rw [hres]
    cases env.importOutcome <;> simp
  · intro p l hmem
    rw [hres] at hmem
    revert hmem
    cases env.importOutcome <;> cases wasFailing <;> intro hmem <;>
      simp at hmem <;> exact ⟨hmem.1, hmem.2⟩
  · intro trace
    unfold as_bytes_with_names as_bytes
    simp

/-- Witness for `deliver_commit_raw_passthrough` at a concrete
environment: a two-byte message is handed to the import call
unchanged. -/
theorem deliver_commit_raw_passthrough_witness :
    Event.importMsg [70, 10] ["A"] ∈
      (deliver_commit ⟨.ok [70, 10], .ok (), "", "", "<m@x>", .ok ()⟩
        "d1" 0 "c2" ["A"] false []).2 :=
  (deliver_commit_raw_passthrough
    ⟨.ok [70, 10], .ok (), "", "", "<m@x>", .ok ()⟩ [70, 10]
    "d1" 0 "c2" ["A"] false [] rfl rfl rfl).1

/-! ## Per-target delivery loop (src/korgalore/cli.py, `perform_pull`)

Inside `perform_pull`, each target's run list is iterated with a local
`consecutive_failures` counter, starting at 0 for every target.  Each
item's `deliver_commit` outcome is its return value: `none` on failure,
the bozofilter sentinel on a skip, a Message-ID otherwise.
`deliveryLoop` returns the outcomes of the run-list items that are
actually attempted, in order; the loop body checks the counter before
each item and breaks at 5. -/

/-- Counter update after one `deliver_commit` outcome: a failure
increments, a bozofilter skip leaves it unchanged, a delivered message
resets it to zero. -/
def nextConsecutiveFailures (cf : Nat) (outcome : Option String) : Nat :=
  match outcome with
  | none => cf + 1
  | some m => if m = SKIPPED_BOZOFILTER then cf else 0

/-- The per-target iteration of `perform_pull`: attempt items until the
consecutive-failure counter reaches 5, returning the attempted
outcomes in order. -/
def deliveryLoop : Nat → List (Option String) → List (Option String)
  | _, [] => []
  | cf, r :: rs =>
    if 5 ≤ cf then []
    else r :: deliveryLoop (nextConsecutiveFailures cf r) rs

/-- The outer loop of `perform_pull` over the per-target run lists:
each target gets its own loop with a fresh counter. -/
def processTargets (targets : List (List (Option String))) :
    List (List (Option String)) :=
  targets.map (deliveryLoop 0)

theorem deliveryLoop_of_ge (cf : Nat) (l : List (Option String))
    (h : 5 ≤ cf) : deliveryLoop cf l = [] := by
  cases l with
  | nil => rfl
  | cons r rs => simp [deliveryLoop, h]

theorem deliveryLoop_replicate_fail (cf : Nat) (suf : List (Option String)) :
    deliveryLoop cf (List.replicate 5 none ++ suf)
      = deliveryLoop cf (List.replicate 5 none) := by
  by_cases h : 5 ≤ cf
  · rw [deliveryLoop_of_ge _ _ h, deliveryLoop_of_ge _ _ h]
  · have h4 : cf < 5 := Nat.lt_of_not_le h
    interval_cases cf <;>
      simp +decide [List.replicate_succ, deliveryLoop, nextConsecutiveFailures,
        deliveryLoop_of_ge]

theorem deliveryLoop_abort_after_five (cf : Nat)
    (pre suf : List (Option String)) :
    deliveryLoop cf (pre ++ List.replicate 5 none ++ suf)
      = deliveryLoop cf (pre ++ List.replicate 5 none) := by
  induction pre generalizing cf with
  | nil => simpa using deliveryLoop_replicate_fail cf suf
  | cons r rs ih =>
    by_cases h : 5 ≤ cf
    · rw [deliveryLoop_of_ge _ _ h, deliveryLoop_of_ge _ _ h]
    · simp only [List.cons_append, deliveryLoop, if_neg h]
      show r :: deliveryLoop (nextConsecutiveFailures cf r)
            (rs ++ List.replicate 5 none ++ suf)
          = r :: deliveryLoop (nextConsecutiveFailures cf r)
            (rs ++ List.replicate 5 none)
      rw [ih]

theorem processTargets_getD (targets : List (List (Option String))) (i : Nat) :
    (processTargets targets).getD i [] = deliveryLoop 0 (targets.getD i []) := by
  unfold processTargets
  induction targets generalizing i with
  | nil =>
    simp only [List.map_nil]
    rfl
  | cons t ts ih =>
    cases i with
    | zero => simp [List.getD]
    | succ n => simpa [List.getD] using ih n

/-- Claim C6: within one target's delivery loop of a pull cycle,
after five consecutive failed per-commit deliveries no further commit
for that target is attempted in that cycle (the loop's output is
unchanged by anything after the five failures); the consecutive-failure
counter is reset by any success (a returned Message-ID); and each
target's loop runs with its own fresh counter on its own run list, so
an abort never affects another target's loop. -/
theorem perform_pull_failure_backoff (cf : Nat)
    (pre suf : List (Option String)) (m : String)
    (targets : List (List (Option String))) (i : Nat)
    (hm : m ≠ SKIPPED_BOZOFILTER) :
    (deliveryLoop cf (pre ++ List.replicate 5 none ++ suf)
      = deliveryLoop cf (pre ++ List.replicate 5 none)) ∧
    (nextConsecutiveFailures cf (some m) = 0) ∧
    ((processTargets targets).getD i [] = deliveryLoop 0 (targets.getD i [])) := by
  refine ⟨deliveryLoop_abort_after_five cf pre suf, ?_, processTargets_getD targets i⟩
  simp [nextConsecutiveFailures, hm]

/-- Witness for `perform_pull_failure_backoff`: one successful delivery
before five failures; the sixth-position success is never attempted. -/
theorem perform_pull_failure_backoff_witness :
    deliveryLoop 0 ([some "<a@x>"] ++ List.replicate 5 none ++ [some "<b@x>"])
      = deliveryLoop 0 ([some "<a@x>"] ++ List.replicate 5 none) ∧
    nextConsecutiveFailures 4 (some "<a@x>") = 0 :=
  ⟨(perform_pull_failure_backoff 0 [some "<a@x>"] [some "<b@x>"] "<a@x>" [] 0
      (by decide)).1,
   (perform_pull_failure_backoff 4 [] [] "<a@x>" [] 0 (by decide)).2.1⟩

/-! ## Rebase recovery (src/korgalore/pi_service.py,
`PIService.recover_after_rebase`)

The git side is an oracle: `revlist` is the result of
`rev-list --reverse --since-as-filter <commit_date> <branch>` — `none`
when the command fails, otherwise the listed commits (oldest first,
all at or after the saved date).  For each listed commit, `fetched`
gives the outcome of `get_message_at_commit` plus parsing: the parsed
(subject, Message-ID) pair, or the `StateError`/`GitError` the fetch
raised (a deletion-marker commit in the enumeration has no `m` file
and raises `StateError`, which aborts the recovery).  `tipRecord` is
the outcome of the `update_korgalore_info()` call of the
empty-enumeration branch, whose internal fetch of the tip's message
can itself raise (the source's TODO at pi_service.py:304); and
`recordDate` is the outcome of the `git show -s --format=%ci` date
lookup inside the final `update_korgalore_info` call.  The function
returns the new cursor commit and whether it was recorded, or the
exception that propagated. -/

/-- One commit of the rev-list enumeration: its hash and the outcome
of fetching and parsing its message (subject, Message-ID). -/
structure CommitEntry where
  chash : String
  fetched : Except KErr (String × String)

/-- The loop's match test on a successfully fetched commit: parsed
subject and Message-ID equal the values saved in korgalore.info.
(A commit whose fetch raises never matches; the scan raises first.) -/
def matchesSavedEntry (savedSubject savedMsgid : String) (e : CommitEntry) : Bool :=
  match e.fetched with
  | .ok (s, m) => s == savedSubject && m == savedMsgid
  | .error _ => false

/-- The scan loop of `recover_after_rebase` (pi_service.py:199-207):
fetch and parse each enumerated commit in order — an exception
propagates — and stop at the first whose (subject, Message-ID) equal
the saved values. -/
def scanForMatch (savedSubject savedMsgid : String) :
    List CommitEntry → Except KErr (Option CommitEntry)
  | [] => .ok none
  | e :: rest =>
    match e.fetched with
    | .error err => .error err
    | .ok (s, m) =>
      if s == savedSubject && m == savedMsgid then .ok (some e)
      else scanForMatch savedSubject savedMsgid rest

/-- Embedding of `PIService.recover_after_rebase`: on rev-list failure
return the top commit without recording; on an empty enumeration run
`update_korgalore_info()` (whose tip-message fetch can raise) and
return the tip; otherwise scan for the first commit matching the saved
(subject, message-id) — a fetch exception propagates — falling back to
the first enumerated commit (re-fetching its message,
pi_service.py:212), then record the cursor (the date lookup can raise)
and return it. -/
def recover_after_rebase (revlist : Option (List CommitEntry))
    (savedSubject savedMsgid : String) (tipRecord recordDate : Except KErr Unit)
    (topCommit : String) : Except KErr (String × Bool) :=
  match revlist with
  | none => .ok (topCommit, false)
  | some [] =>
    match tipRecord with
    | .error e => .error e
    | .ok _ => .ok (topCommit, true)
  | some (first :: rest) =>
    match scanForMatch savedSubject savedMsgid (first :: rest) with
    | .error e => .error e
    | .ok (some c) =>
      match recordDate with
      | .error e => .error e
      | .ok _ => .ok (c.chash, true)
    | .ok none =>
      match first.fetched with
      | .error e => .error e
      | .ok _ =>
        match recordDate with
        | .error e => .error e
        | .ok _ => .ok (first.chash, true)

theorem scanForMatch_of_all_ok (savedSubject savedMsgid : String)
    (entries : List CommitEntry)
    (hok : ∀ e ∈ entries, ∃ p, e.fetched = Except.ok p) :
    scanForMatch savedSubject savedMsgid entries
      = .ok (entries.find? (matchesSavedEntry savedSubject savedMsgid)) := by
  induction entries with
  | nil => rfl
  | cons e rest ih =>
    obtain ⟨⟨s, m⟩, hf⟩ := hok e (List.mem_cons_self e rest)
    have hmatch : matchesSavedEntry savedSubject savedMsgid e
        = (s == savedSubject && m == savedMsgid) := by
      unfold matchesSavedEntry
      rw [hf]
    by_cases hsm : (s == savedSubject && m == savedMsgid) = true
    · simp only [scanForMatch, hf, hsm, if_pos rfl, List.find?_cons, hmatch]
      rfl
    · have hrest := ih (fun x hx => hok x (List.mem_cons_of_mem e hx))
      simp only [scanForMatch, hf, List.find?_cons, hmatch]
      rw [if_neg hsm, hrest]
      cases hb : (s == savedSubject && m == savedMsgid) with
      | true => exact absurd hb hsm
      | false => rfl

/-- Claim C7: when the recorded cursor commit no longer resolves,
rebase recovery enumerates commits from the saved commit_date forward
and sets the new cursor to the first commit whose (subject,
message-id) equal the saved values; if no commit matches exactly, it
sets the cursor to the first commit at or after the saved date; if the
enumeration is empty, it records the current tip as the cursor so that
no commits are replayed.  (The cursor-setting parts hold when the
per-commit message fetches and the recording succeed; the remaining
conjuncts show that a fetch or recording exception propagates out of
the recovery instead.) -/
theorem recover_after_rebase_spec (savedSubject savedMsgid topCommit : String)
    (tipRecord recordDate : Except KErr Unit) :
    (∀ (possible : List CommitEntry) (c : CommitEntry),
      (∀ e ∈ possible, ∃ p, e.fetched = Except.ok p) →
      possible.find? (matchesSavedEntry savedSubject savedMsgid) = some c →
      recordDate = .ok () →
      recover_after_rebase (some possible) savedSubject savedMsgid
          tipRecord recordDate topCommit = .ok (c.chash, true) ∧
      matchesSavedEntry savedSubject savedMsgid c = true ∧ c ∈ possible) ∧
    (∀ (first : CommitEntry) (rest : List CommitEntry),
      (∀ e ∈ first :: rest, ∃ p, e.fetched = Except.ok p) →
      (first :: rest).find? (matchesSavedEntry savedSubject savedMsgid) = none →
      recordDate = .ok () →
      recover_after_rebase (some (first :: rest)) savedSubject savedMsgid
          tipRecord recordDate topCommit = .ok (first.chash, true)) ∧
    (tipRecord = .ok () →
      recover_after_rebase (some []) savedSubject savedMsgid
          tipRecord recordDate topCommit = .ok (topCommit, true)) ∧
    (∀ (possible : List CommitEntry) (err : KErr),
      scanForMatch savedSubject savedMsgid possible = .error err →
      recover_after_rebase (some possible) savedSubject savedMsgid
          tipRecord recordDate topCommit = .error err) ∧
    (∀ err : KErr, tipRecord = .error err →
      recover_after_rebase (some []) savedSubject savedMsgid
          tipRecord recordDate topCommit = .error err) := by
  refine ⟨?_, ?_, ?_, ?_, ?_⟩
  · intro possible c hok hfind hrd
    match possible with
    | [] => simp at hfind
    | first :: rest =>
      refine ⟨?_, List.find?_some hfind, List.mem_of_find?_eq_some hfind⟩
      have hscan := scanForMatch_of_all_ok savedSubject savedMsgid (first :: rest) hok
      rw [hfind] at hscan
      simp only [recover_after_rebase]
      rw [hscan, hrd]
  · intro first rest hok hfind hrd
    have hscan := scanForMatch_of_all_ok savedSubject savedMsgid (first :: rest) hok
    rw [hfind] at hscan
    obtain ⟨p, hf⟩ := hok first (List.mem_cons_self first rest)
    simp only [recover_after_rebase]
    rw [hscan, hf, hrd]
  · intro h
    simp only [recover_after_rebase]
    rw [h]
  · intro possible err hscan
    match possible with
    | [] => simp [scanForMatch] at hscan
    | first :: rest =>
      simp only [recover_after_rebase]
      rw [hscan]
  · intro err h
    simp only [recover_after_rebase]
    rw [h]

/-- Witness for `recover_after_rebase_spec`: a one-commit enumeration
whose message fetches successfully and matches the saved values
becomes the new cursor; an empty enumeration records the tip. -/
theorem recover_after_rebase_spec_witness :
    recover_after_rebase (some [⟨"h1", .ok ("S", "<m@x>")⟩]) "S" "<m@x>"
        (.ok ()) (.ok ()) "tip" = .ok ("h1", true) ∧
    recover_after_rebase (some []) "S" "<m@x>" (.ok ()) (.ok ()) "tip"
        = .ok ("tip", true) :=
  ⟨((recover_after_rebase_spec "S" "<m@x>" "tip" (.ok ()) (.ok ())).1
      [⟨"h1", .ok ("S", "<m@x>")⟩] ⟨"h1", .ok ("S", "<m@x>")⟩
      (by
        intro e he
        rw [List.mem_singleton] at he
        subst he
        exact ⟨("S", "<m@x>"), rfl⟩)
      rfl rfl).1,
   (recover_after_rebase_spec "S" "<m@x>" "tip" (.ok ()) (.ok ())).2.2.1 rfl⟩

/-! ## Feed update pass (src/korgalore/cli.py, `update_all_feeds` and
`perform_pull`)

`update_feed` returns a bitmask over the UPDATED and INITIALIZED flags
(the flag constants live in the PIFeed base class); `FeedStatus` models
the two bit tests.  `update_all_feeds` builds both the updated and the
initialized key lists, logs the initialized ones, and returns only the
updated list.  `perform_pull` (without `force`) then runs exactly the
deliveries bound to updated feeds, in updated-feed order. -/

/-- The two flag tests on an `update_feed` status bitmask. -/
structure FeedStatus where
  updated : Bool
  initialized : Bool
deriving DecidableEq

/-- The two lists the `update_all_feeds` loop builds: feed keys whose
status has the UPDATED bit, and feed keys whose status has the
INITIALIZED bit, in iteration order. -/
def update_all_feeds_lists : List (String × FeedStatus) →
    List String × List String
  | [] => ([], [])
  | (k, st) :: rest =>
    let (u, i) := update_all_feeds_lists rest
    ((if st.updated then k :: u else u), (if st.initialized then k :: i else i))

/-- Embedding of `update_all_feeds(ctx)`: the initialized list is only logged; the
function returns the updated list alone. -/
def update_all_feeds (feeds : List (String × FeedStatus)) : List String :=
  (update_all_feeds_lists feeds).1

/-- Embedding of `perform_pull`'s deliveries-to-run computation: with `force` every
delivery runs; otherwise, per updated feed key, the deliveries bound to
it (a delivery is a (name, feed-key) binding). -/
def run_deliveries (force : Bool) (updatedFeeds : List String)
    (deliveries : List (String × String)) : List String :=
  if force then deliveries.map Prod.fst
  else
    (updatedFeeds.map (fun fk =>
      deliveries.filterMap (fun d => if d.2 = fk then some d.1 else none))).flatten

/-- Modelled from the spec: step 6 of the pull cycle ("For every
delivery whose feed is in the INITIALIZED set, write an initial
delivery-state file at the current tip"), which has no counterpart in
`cli.py`: the delivery names for which a tip-initialized state file
must be written in the same cycle. -/
def spec_initialized_state_writes (initializedFeeds : List String)
    (deliveries : List (String × String)) : List String :=
  deliveries.filterMap (fun d =>
    if d.2 ∈ initializedFeeds then some d.1 else none)

/-- Claim C8 (code bug, evaluated at the failing input): a pull
cycle in which `update_feed` reports feed `new-feed` as INITIALIZED
(and not UPDATED), with one delivery `my-delivery` bound to it.
`update_all_feeds` computes the initialized list but returns only the
(empty) updated list, so `perform_pull` runs no delivery for the feed
and never touches its delivery state — while the spec (and the repo's
test_init_delivery_state.py) require a tip-initialized delivery-state
write for `my-delivery` in this same cycle. -/
theorem initialized_feed_state_never_written :
    update_all_feeds [("new-feed", ⟨false, true⟩)] = [] ∧
    (update_all_feeds_lists [("new-feed", ⟨false, true⟩)]).2 = ["new-feed"] ∧
    run_deliveries false (update_all_feeds [("new-feed", ⟨false, true⟩)])
        [("my-delivery", "new-feed")] = [] ∧
    spec_initialized_state_writes ["new-feed"] [("my-delivery", "new-feed")]
        = ["my-delivery"] := by
  refine ⟨rfl, rfl, rfl, by simp [spec_initialized_state_writes]⟩

/-! ## Epoch discovery (src/korgalore/pi_service.py,
`PIService.find_epochs`)

The directory listing of `git/` is the input.  For each subdirectory
whose name ends in `.git`, the code computes
`item.name.replace('.git', '')` — removing **every** occurrence of
`.git`, not only the suffix — and feeds it to Python's `int()`, which
accepts surrounding whitespace, a leading `+` or `-` sign, and
underscores between digits.  Parses that fail are skipped; an empty
result raises `PublicInboxError`; otherwise the collected numbers are
returned sorted ascending. -/

/-- One entry of the `git/` directory listing. -/
structure DirEntry where
  name : String
  isDir : Bool

/-- ASCII decimal digit test. -/
def isAsciiDigit (c : Char) : Bool := '0' ≤ c && c ≤ '9'

/-- Numeric value of an ASCII digit. -/
def digitVal (c : Char) : Nat := c.toNat - 48

/-- Python whitespace stripped by `int()` (ASCII range). -/
def isPyWs (c : Char) : Bool :=
  c = ' ' || c = '\t' || c = '\n' || c = '\r' || c = '\x0b' || c = '\x0c'

/-- Strip leading and trailing whitespace. -/
def pyStrip (l : List Char) : List Char :=
  ((l.dropWhile isPyWs).reverse.dropWhile isPyWs).reverse

/-- After a first digit, Python `int()` accepts further digits with
single underscores allowed between digits. -/
def pyDigitsTail : List Char → Option (List Char)
  | [] => some []
  | ['_'] => none
  | '_' :: c :: rest =>
    if isAsciiDigit c then (pyDigitsTail rest).map (c :: ·) else none
  | c :: rest =>
    if isAsciiDigit c then (pyDigitsTail rest).map (c :: ·) else none

/-- Decimal value of a digit list. -/
def natOfDigits (ds : List Char) : Nat :=
  ds.foldl (fun a c => 10 * a + digitVal c) 0

/-- The digit part of a Python integer literal: a digit followed by
digits with optional single underscores between them. -/
def pyIntDigits : List Char → Option Nat
  | [] => none
  | c :: rest =>
    if isAsciiDigit c then
      (pyDigitsTail rest).map (fun ds => natOfDigits (c :: ds))
    else none

/-- Python `int(s)` for a base-10 string (ASCII range): strip
whitespace, accept one optional sign, then the digit part. -/
def pyInt (s : String) : Option Int :=
  match pyStrip s.data with
  | '+' :: rest => (pyIntDigits rest).map (fun n => (n : Int))
  | '-' :: rest => (pyIntDigits rest).map (fun n => -(n : Int))
  | rest => (pyIntDigits rest).map (fun n => (n : Int))

/-- Embedding of `name.replace('.git', '')`: remove every occurrence of `.git`,
scanning left to right. -/
def removeDotGit : List Char → List Char
  | '.' :: 'g' :: 'i' :: 't' :: rest => removeDotGit rest
  | c :: rest => c :: removeDotGit rest
  | [] => []

/-- Embedding of `name.endswith('.git')`. -/
def endsWithDotGit (l : List Char) : Bool :=
  List.isSuffixOf ['.', 'g', 'i', 't'] l

/-- Stable insertion of an integer into an ascending list. -/
def insertSortedInt (x : Int) : List Int → List Int
  | [] => [x]
  | y :: ys => if x ≤ y then x :: y :: ys else y :: insertSortedInt x ys

/-- Python `sorted` on integers: ascending order. -/
def sortInts (l : List Int) : List Int := l.foldr insertSortedInt []

/-- Embedding of `PIService.find_epochs(topdir)`: collect, over the `git/` listing,
`int(name.replace('.git', ''))` for every subdirectory whose name ends
in `.git` and whose stripped name parses; error when nothing was
collected, else the sorted numbers. -/
def find_epochs (entries : List DirEntry) : Except Unit (List Int) :=
  let existing := entries.filterMap (fun e =>
    if e.isDir && endsWithDotGit e.name.data then
      pyInt (String.mk (removeDotGit e.name.data))
    else none)
  if existing.isEmpty then .error () else .ok (sortInts existing)

/-- The claim as stated: only subdirectories whose name minus the
`.git` suffix parses as a *nonnegative* integer contribute, all others
are excluded. -/
def find_epochs_claimed (entries : List DirEntry) : Except Unit (List Int) :=
  let existing := entries.filterMap (fun e =>
    if e.isDir && endsWithDotGit e.name.data then
      match pyInt (String.mk ((e.name.data).take (e.name.data.length - 4))) with
      | some n => if 0 ≤ n then some n else none
      | none => none
    else none)
  if existing.isEmpty then .error () else .ok (sortInts existing)

/-- Claim C9 counterexample: on the directory listing `["-1.git"]`
Python's `int()` accepts the sign, so `find_epochs` returns the epoch
list `[-1]`, although `-1.git` does not parse as a nonnegative integer
and the claim's reading would exclude it (leaving no epochs at all);
and on `["0.git.git"]` the replace-all semantics of
`name.replace('.git', '')` yields epoch 0, although the name minus its
`.git` suffix is `0.git`, which parses as no integer at all. -/
theorem find_epochs_counterexample :
    find_epochs [⟨"-1.git", true⟩] = .ok [-1] ∧
    find_epochs_claimed [⟨"-1.git", true⟩] = .error () ∧
    ¬ (0 ≤ (-1 : Int)) ∧
    find_epochs [⟨"0.git.git", true⟩] = .ok [0] ∧
    find_epochs_claimed [⟨"0.git.git", true⟩] = .error () :=
  ⟨rfl, rfl, by decide, rfl, rfl⟩

/-- The amended claim, following its words: epoch discovery returns,
numerically sorted, the values `int(n)` for the subdirectories of
`git/` whose names end in `.git` and whose name — after removing every
occurrence of `.git`, not only the suffix — parses as a Python base-10
integer (sign and surrounding whitespace accepted, so negative epochs
are possible); all other directory names are excluded, and an empty
collection is an error. -/
def find_epochs_amended (entries : List DirEntry) : Except Unit (List Int) :=
  let subdirs := entries.filter (fun e => e.isDir && endsWithDotGit e.name.data)
  let parsed := subdirs.filterMap (fun e => pyInt (String.mk (removeDotGit e.name.data)))
  if parsed.isEmpty then .error () else .ok (sortInts parsed)

theorem filterMap_guard_eq_filter_filterMap (p : DirEntry → Bool)
    (h : DirEntry → Option Int) (entries : List DirEntry) :
    entries.filterMap (fun e => if p e then h e else none)
      = (entries.filter p).filterMap h := by
  induction entries with
  | nil => rfl
  | cons e rest ih =>
    by_cases hp : p e
    · simp [List.filterMap_cons, List.filter_cons, hp, ih]
    · simp [List.filterMap_cons, List.filter_cons, hp, ih]

/-- Claim C9 (amended): `find_epochs` computes exactly the amended
description — the sorted `int(name.replace('.git', ''))` over the
`.git`-suffixed subdirectories whose stripped name Python's `int()`
accepts (signs included), erroring when none do. -/
theorem find_epochs_eq_amended (entries : List DirEntry) :
    find_epochs entries = find_epochs_amended entries := by
  unfold find_epochs find_epochs_amended
  rw [filterMap_guard_eq_filter_filterMap
    (fun e => e.isDir && endsWithDotGit e.name.data)
    (fun e => pyInt (String.mk (removeDotGit e.name.data))) entries]

end Korgalore
